import Mathlib

/-!
Verification of the order-tracking engine of `shopify-order-tracking`.

The definitions below are a shallow embedding of the JavaScript source
(`src/index.js` and the worker variant carrying the `buttonsDisabled` /
`disabledReason` fields in `determineOrderStatus` and `handleTrack`).
JavaScript optional string fields are modelled as `Option String`, and
JavaScript truthiness of such a value (`null`/`undefined` and `""` are
falsy) is modelled by `optTruthy`.  Timestamps handled numerically by the
code (`Date.now()`, parsed `created_at` values, `dayjs` millisecond
arithmetic) are modelled as `Int` epoch milliseconds; ISO timestamp
strings that the code only passes through (`closed_at`) stay `String`.
The single upstream `fetch` of `getOrder` is modelled by handing the
prepared upstream response to the function as data, together with an
explicit count of upstream calls performed.
-/

namespace ShopifyTracking

/-- JavaScript truthiness of a string (`""` is falsy). -/
def strTruthy (s : String) : Bool := s ≠ ""

/-- JavaScript truthiness of an optional string (`null` and `""` are falsy). -/
def optTruthy : Option String → Bool
  | none => false
  | some s => strTruthy s

/-- Model of `String.prototype.toLowerCase` (ASCII case folding). -/
def jsToLower (s : String) : String := ⟨s.data.map Char.toLower⟩

/-- One entry of a fulfillment's `line_items` array; only the
`tracking_number` field is inspected by the engine. -/
structure LineItem where
  tracking_number : Option String
deriving DecidableEq, Repr

/-- One upstream fulfillment record, with the heterogeneous tracking
field shapes probed by `determineOrderStatus`. -/
structure Fulfillment where
  tracking_numbers : List String
  tracking_number : Option String
  trackingNumber : Option String
  line_items : List LineItem
deriving DecidableEq, Repr

/-- One upstream order record (`data.orders[i]`), restricted to the
fields the engine reads. -/
structure Order where
  name : String
  email : Option String
  created_at : Int
  closed_at : Option String
  fulfillments : List Fulfillment
deriving DecidableEq, Repr

/-- The tracking-number selection of `determineOrderStatus` performed
before the `line_items` scan: `tracking_numbers[0]` when the array is
non-empty, else the truthy singular `tracking_number`, else the truthy
camel-case `trackingNumber`, else `null`. -/
def preSelect (f : Fulfillment) : Option String :=
  match f.tracking_numbers with
  | x :: _ => some x
  | [] =>
    if optTruthy f.tracking_number then f.tracking_number
    else if optTruthy f.trackingNumber then f.trackingNumber
    else none

/-- The full tracking extraction of `determineOrderStatus` (lines
157–190 of the worker source): operate on `fulfillments[0]` only; after
`preSelect`, when the selected value is still falsy, the first line item
with a truthy `tracking_number` overrides it. -/
def extractTracking (order : Order) : Option String :=
  match order.fulfillments with
  | [] => none
  | f :: _ =>
    let t := preSelect f
    if optTruthy t then t
    else
      match f.line_items.find? (fun item => optTruthy item.tracking_number) with
      | some item => item.tracking_number
      | none => t

/-- The classifier's output record. -/
structure StatusResult where
  status : String
  trackingNumber : Option String
  deliveredAt : Option String
  buttonsDisabled : Bool
  disabledReason : Option String
deriving DecidableEq, Repr

/-- The classifier `determineOrderStatus` from the worker source: tracking extraction,
then the `closed_at` check, then tracking presence, then the 48-hour
rule on `dayjs().diff(dayjs(order.created_at), 'hour')`, which is the
millisecond difference truncated toward zero to whole hours. -/
def determineOrderStatus (order : Order) (now : Int) : StatusResult :=
  let trackingNumber := extractTracking order
  if optTruthy order.closed_at then
    { status := "Order Delivered"
      trackingNumber := trackingNumber
      deliveredAt := order.closed_at
      buttonsDisabled := true
      disabledReason := some "Order has been delivered" }
  else if optTruthy trackingNumber then
    { status := "In Transit"
      trackingNumber := trackingNumber
      deliveredAt := none
      buttonsDisabled := true
      disabledReason := some "Order is in transit" }
  else
    let hours := (now - order.created_at).tdiv 3600000
    if hours < 48 then
      { status := "Order Processing"
        trackingNumber := none
        deliveredAt := none
        buttonsDisabled := false
        disabledReason := none }
    else
      { status := "In Transit"
        trackingNumber := none
        deliveredAt := none
        buttonsDisabled := true
        disabledReason := some "Order is in transit (48+ hours)" }

/-- Character class of the regex `[a-zA-Z0-9\-_#]`. -/
def isOrderChar (c : Char) : Bool :=
  ('a' ≤ c && c ≤ 'z') || ('A' ≤ c && c ≤ 'Z') || ('0' ≤ c && c ≤ '9') ||
    c = '-' || c = '_' || c = '#'

/-- Validator `validateOrderNumber`: the regex `^[a-zA-Z0-9\-_#]+$` (non-empty,
all characters in the class) conjoined with the `1 ≤ length ≤ 50`
checks. -/
def validateOrderNumber (s : String) : Bool :=
  (!s.data.isEmpty && s.data.all isOrderChar) && (1 ≤ s.length && s.length ≤ 50)

/-- Character class `[^\s@]` of the email regex. -/
def isEmailChar (c : Char) : Bool := !c.isWhitespace && c ≠ '@'

/-- Split a character list at every occurrence of `c` (the pieces do
not contain `c`); the result is always non-empty. -/
def splitOnChar (c : Char) : List Char → List (List Char)
  | [] => [[]]
  | x :: xs =>
    match splitOnChar c xs with
    | [] => []
    | h :: t => if x = c then [] :: h :: t else (x :: h) :: t

/-- Validator `validateEmail`: the regex `^[^\s@]+@[^\s@]+\.[^\s@]+$`.  Since the
classes exclude `@`, a matching string has exactly one `@`; the part
after it must contain a `.` with at least one class character on each
side. -/
def validateEmail (s : String) : Bool :=
  match splitOnChar '@' s.data with
  | [lp, dp] =>
    !lp.isEmpty && lp.all isEmailChar &&
      dp.all isEmailChar && ((dp.drop 1).dropLast.contains '.')
  | _ => false

/-- The `RateLimiter`'s `requests` map (client identifier to recorded
timestamps); absent keys read as `[]`, matching the
`has`/`set`-to-empty handling in `isAllowed`. -/
structure RateLimiterState where
  requests : String → List Int

/-- The freshly constructed rate limiter: no recorded requests. -/
def RateLimiterState.init : RateLimiterState := ⟨fun _ => []⟩

/-- The throttle `RateLimiter.isAllowed`: prune the client's timestamps to those with
`time > now - windowMs`, reject without recording when the remaining
count reaches `maxRequests`, otherwise record `now` and admit.  Returns
the decision and the state after the call. -/
def isAllowed (st : RateLimiterState) (ip : String) (now : Int)
    (maxRequests : Nat) (windowMs : Int) : Bool × RateLimiterState :=
  let windowStart := now - windowMs
  let userRequests := st.requests ip
  let validRequests := userRequests.filter (fun time => windowStart < time)
  if maxRequests ≤ validRequests.length then
    (false, ⟨fun k => if k = ip then validRequests else st.requests k⟩)
  else
    (true, ⟨fun k => if k = ip then validRequests ++ [now] else st.requests k⟩)

/-- The upstream response consumed by `getOrder`'s single `fetch`:
an HTTP status and the `data.orders` array (`[]` when absent). -/
structure UpstreamResponse where
  status : Nat
  orders : List Order
deriving DecidableEq, Repr

/-- Predicate for `Response.ok`: status in the 2xx range. -/
def responseOk (r : UpstreamResponse) : Bool := 200 ≤ r.status && r.status ≤ 299

/-- The message of the error thrown on a non-2xx upstream response. -/
def shopifyErrorMessage (status : Nat) : String :=
  "Shopify API error: " ++ toString status

/-- The boolean email filter of `getOrder`:
`o.email && o.email.toLowerCase() === email.toLowerCase()`. -/
def emailMatchesJs (email : String) (o : Order) : Bool :=
  match o.email with
  | none => false
  | some e => strTruthy e && jsToLower e == jsToLower email

/-- The descending `created_at` sort of `getOrder`
(`orders.sort((a, b) => new Date(b.created_at) - new Date(a.created_at))`);
the JavaScript sort is stable, modelled by the stable `List.mergeSort`. -/
def sortByCreatedDesc (orders : List Order) : List Order :=
  orders.mergeSort (fun a b => b.created_at ≤ a.created_at)

/-- The locator `getOrder`, with the upstream response supplied as data: throws
(`Except.error` with the thrown message) on missing criteria or a
non-2xx response, returns `none` for an empty result set, the
email-filtered candidate (falling back to `orders[0]`) when both
criteria are truthy, and the head of the descending `created_at` sort
otherwise.  The second component counts upstream calls performed. -/
def getOrder (orderNumber email : Option String) (resp : UpstreamResponse) :
    Except String (Option Order) × Nat :=
  if !optTruthy orderNumber && !optTruthy email then
    (.error "Either orderNumber or email must be provided", 0)
  else if !responseOk resp then
    (.error (shopifyErrorMessage resp.status), 1)
  else
    let orders := resp.orders
    if orders.isEmpty then (.ok none, 1)
    else if optTruthy orderNumber && optTruthy email then
      match orders.find? (emailMatchesJs (email.getD "")) with
      | some o => (.ok (some o), 1)
      | none => (.ok orders.head?, 1)
    else
      (.ok (sortByCreatedDesc orders).head?, 1)

/-- Model of `order.name.replace('#', '')`: remove the first occurrence
of `'#'`, wherever it appears; a string without `'#'` is unchanged. -/
def replaceFirst (c : Char) : List Char → List Char
  | [] => []
  | x :: xs => if x = c then xs else x :: replaceFirst c xs

/-- Model of `order.name.replace('#', '')` on strings. -/
def stripHash (s : String) : String := ⟨replaceFirst '#' s.data⟩

/-- Substring search over character lists. -/
def includesAux (needle : List Char) : List Char → Bool
  | [] => needle.isEmpty
  | c :: t => needle.isPrefixOf (c :: t) || includesAux needle t

/-- Model of `haystack.includes(needle)`. -/
def includesStr (haystack needle : String) : Bool :=
  includesAux needle.data haystack.data

/-- The success payload of `handleTrack`. -/
structure SuccessData where
  orderNumber : String
  status : String
  trackingNumber : Option String
  orderDate : Int
  lastUpdated : Int
  deliveredAt : Option String
  buttonsDisabled : Bool
  disabledReason : Option String
deriving DecidableEq, Repr

/-- A `handleTrack` response: either the success payload or an error
body (`error`, `message`, `code`) with its HTTP status. -/
inductive TrackResult where
  | success (data : SuccessData)
  | failure (error : String) (message : String) (code : String) (httpStatus : Nat)
deriving DecidableEq, Repr

/-- The `catch` handler of `handleTrack`: classify the thrown message by
substring matching on `Shopify API error: 401` / `403` / `5`. -/
def handleShopifyError (msg : String) : TrackResult :=
  if includesStr msg "Shopify API error: 401" then
    .failure "Authentication failed" "Shopify API authentication error"
      "SHOPIFY_AUTH_ERROR" 500
  else if includesStr msg "Shopify API error: 403" then
    .failure "Access denied" "Shopify API access denied"
      "SHOPIFY_ACCESS_DENIED" 500
  else if includesStr msg "Shopify API error: 5" then
    .failure "Service unavailable" "Shopify API is currently unavailable"
      "SHOPIFY_SERVICE_UNAVAILABLE" 503
  else
    .failure "Internal server error"
      "An unexpected error occurred while processing your request"
      "INTERNAL_ERROR" 500

/-- Outcome of one `handleTrack` invocation: the response, the rate
limiter state after the call, and how many upstream calls were made. -/
structure TrackOutcome where
  result : TrackResult
  limiterState : RateLimiterState
  upstreamCalls : Nat

/-- The endpoint handler `handleTrack` with its collaborators supplied as data: rate-limit
check (with the source's default policy `maxRequests = 100`,
`windowMs = 15 * 60 * 1000`), input validation, the single `getOrder`
call, then status derivation and response assembly.  `now` stands for
the wall clock (`Date.now()`, `dayjs()`, `new Date()`). -/
def handleTrack (st : RateLimiterState) (clientIP : String)
    (orderNumber email : Option String) (resp : UpstreamResponse)
    (now : Int) : TrackOutcome :=
  let check := isAllowed st clientIP now 100 900000
  let st' := check.2
  if !check.1 then
    ⟨.failure "Too many requests from this IP, please try again later."
      "Rate limit exceeded" "RATE_LIMIT_EXCEEDED" 429, st', 0⟩
  else if !optTruthy orderNumber && !optTruthy email then
    ⟨.failure "Missing required fields"
      "Please provide either order number or email address"
      "MISSING_FIELDS" 400, st', 0⟩
  else if optTruthy orderNumber && !validateOrderNumber (orderNumber.getD "") then
    ⟨.failure "Invalid order number"
      "Order number must be 1-50 characters and contain only letters, numbers, hyphens, underscores, and #"
      "INVALID_ORDER_NUMBER" 400, st', 0⟩
  else if optTruthy email && !validateEmail (email.getD "") then
    ⟨.failure "Invalid email address" "Please provide a valid email address"
      "INVALID_EMAIL" 400, st', 0⟩
  else
    let fetched := getOrder orderNumber email resp
    match fetched.1 with
    | .error msg => ⟨handleShopifyError msg, st', fetched.2⟩
    | .ok none =>
      ⟨.failure "Order not found"
        "No order found with the provided search criteria"
        "ORDER_NOT_FOUND" 404, st', fetched.2⟩
    | .ok (some order) =>
      let statusInfo := determineOrderStatus order now
      ⟨.success
        { orderNumber := stripHash order.name
          status := statusInfo.status
          trackingNumber := statusInfo.trackingNumber
          orderDate := order.created_at
          lastUpdated := now
          deliveredAt := statusInfo.deliveredAt
          buttonsDisabled := statusInfo.buttonsDisabled
          disabledReason := statusInfo.disabledReason }, st', fetched.2⟩

/-! ## General helper lemmas -/

/-- Searching with `find?` returns the first element satisfying the predicate. -/
theorem find?_first {α : Type} (p : α → Bool) (l₁ l₂ : List α) (a : α)
    (h₁ : ∀ x ∈ l₁, p x = false) (h₂ : p a = true) :
    (l₁ ++ a :: l₂).find? p = some a := by
  induction l₁ with
  | nil => simpa using List.find?_cons_of_pos _ h₂
  | cons x xs ih =>
    rw [List.cons_append, List.find?_cons_of_neg _ (by simp [h₁ x (by simp)])]
    exact ih fun y hy => h₁ y (by simp [hy])

/-- Removal by `replaceFirst` leaves a list without the character unchanged. -/
theorem replaceFirst_of_not_mem {c : Char} : ∀ {l : List Char}, c ∉ l →
    replaceFirst c l = l
  | [], _ => rfl
  | x :: xs, h => by
    have hx : ¬ x = c := fun e => h (e ▸ List.mem_cons_self x xs)
    simp only [replaceFirst, if_neg hx,
      replaceFirst_of_not_mem (fun hm => h (List.mem_cons_of_mem x hm))]

/-! ## C7: order-number validation -/

/-- C7: `validateOrderNumber` accepts a string iff its length is between
1 and 50 and every character is in `[A-Za-z0-9_#-]` (the `isOrderChar`
class); all other strings are rejected. -/
theorem validateOrderNumber_spec (s : String) :
    validateOrderNumber s = true ↔
      (1 ≤ s.length ∧ s.length ≤ 50 ∧ ∀ c ∈ s.data, isOrderChar c = true) := by
  unfold validateOrderNumber
  have hlen : s.length = s.data.length := rfl
  simp only [Bool.and_eq_true, Bool.not_eq_true', List.all_eq_true,
    decide_eq_true_eq, hlen]
  constructor
  · rintro ⟨⟨_, hall⟩, h1, h2⟩
    exact ⟨h1, h2, hall⟩
  · rintro ⟨h1, h2, hall⟩
    refine ⟨⟨?_, hall⟩, h1, h2⟩
    cases hd : s.data with
    | nil => rw [hd] at h1; exact absurd h1 (by simp)
    | cons a t => simp

/-! ## C1: delivered classification -/

/-- C1: whenever the candidate's `closed_at` is set (a non-empty
timestamp), `determineOrderStatus` yields `Order Delivered`, passes the
extracted tracking number through, reports `deliveredAt = closed_at`,
disables the buttons and gives the delivered reason — for every
candidate and every current time, hence regardless of tracking presence
or elapsed age. -/
theorem determineOrderStatus_closed_delivered (order : Order) (now : Int)
    (h : optTruthy order.closed_at = true) :
    determineOrderStatus order now =
      { status := "Order Delivered"
        trackingNumber := extractTracking order
        deliveredAt := order.closed_at
        buttonsDisabled := true
        disabledReason := some "Order has been delivered" } := by
  simp [determineOrderStatus, h]

/-- A delivered order carrying a tracking number and an old creation
time, used to instantiate the C1 theorem. -/
def c1order : Order :=
  ⟨"#1001", some "jane@example.com", 0, some "2024-01-14T16:45:00Z",
    [⟨["TRK123"], none, none, []⟩]⟩

/-- Witness for C1 at a concrete delivered order with tracking. -/
theorem determineOrderStatus_closed_delivered_witness :
    optTruthy c1order.closed_at = true ∧
    determineOrderStatus c1order 3000000000 =
      { status := "Order Delivered"
        trackingNumber := extractTracking c1order
        deliveredAt := c1order.closed_at
        buttonsDisabled := true
        disabledReason := some "Order has been delivered" } :=
  ⟨by decide, determineOrderStatus_closed_delivered c1order 3000000000 (by decide)⟩

/-! ## C6: 48-hour rule -/

/-- C6: a candidate with no (truthy) `closed_at` and no truthy extracted
tracking number is classified `Order Processing` (buttons enabled, no
reason) when the truncated whole-hour difference is below 48, and
`In Transit` with the 48+ hours reason and disabled buttons at 48 hours
or more. -/
theorem determineOrderStatus_no_tracking (order : Order) (now : Int)
    (hclosed : optTruthy order.closed_at = false)
    (htrack : optTruthy (extractTracking order) = false) :
    ((now - order.created_at).tdiv 3600000 < 48 →
      determineOrderStatus order now =
        { status := "Order Processing", trackingNumber := none, deliveredAt := none,
          buttonsDisabled := false, disabledReason := none }) ∧
    (48 ≤ (now - order.created_at).tdiv 3600000 →
      determineOrderStatus order now =
        { status := "In Transit", trackingNumber := none, deliveredAt := none,
          buttonsDisabled := true,
          disabledReason := some "Order is in transit (48+ hours)" }) := by
  refine ⟨fun hh => ?_, fun hh => ?_⟩
  · simp [determineOrderStatus, hclosed, htrack, hh]
  · simp [determineOrderStatus, hclosed, htrack, Int.not_lt.mpr hh]

/-- A three-hour-old order with no closure and no tracking data, used to
instantiate the C6 theorem. -/
def c6order : Order := ⟨"#1002", none, 0, none, []⟩

/-- Witness for C6: three hours after creation the order is
`Order Processing` with buttons enabled. -/
theorem determineOrderStatus_no_tracking_witness :
    optTruthy c6order.closed_at = false ∧
    optTruthy (extractTracking c6order) = false ∧
    ((10800000 - c6order.created_at).tdiv 3600000 < 48 ∧
      determineOrderStatus c6order 10800000 =
        { status := "Order Processing", trackingNumber := none, deliveredAt := none,
          buttonsDisabled := false, disabledReason := none }) :=
  ⟨by decide, by decide,
    by decide,
    (determineOrderStatus_no_tracking c6order 10800000 (by decide) (by decide)).1
      (by decide)⟩

/-! ## C5: tracking extraction fallback order -/

/-- A fulfillment whose tracking list holds a single empty string and
whose line item carries a tracking number. -/
def c5order : Order := ⟨"#1003", none, 0, none, [⟨[""], none, none, [⟨some "X1"⟩]⟩]⟩

/-- C5 counterexample: the first fulfillment's `tracking_numbers` list is
non-empty (it is `[""]`), so the claimed fallback order would produce its
first element `""`; the code instead lets the line-item scan override the
falsy selection and produces `"X1"`. -/
theorem extractTracking_counterexample :
    c5order.fulfillments.map Fulfillment.tracking_numbers = [[""]] ∧
    extractTracking c5order = some "X1" ∧
    (some "X1" : Option String) ≠ some "" := by
  refine ⟨rfl, rfl, by decide⟩

/-- C5 (amended): `extractTracking` is total and deterministic, inspects
only `fulfillments[0]` (`none` when there is none, later fulfillments are
ignored), and applies the fallback order: first element of
`tracking_numbers` when that element is non-empty, else the truthy
singular `tracking_number`, else the truthy `trackingNumber`; when the
value selected this way is absent or empty, the first line item carrying
a truthy `tracking_number` overrides it, and with no such line item the
selection (possibly the empty first list element) stands.  In particular
with the list, a singular field and a line-item field all populated and
non-empty, the list value wins. -/
theorem extractTracking_fallback_spec (order : Order) :
    (order.fulfillments = [] → extractTracking order = none)
    ∧ (∀ f rest rest', order.fulfillments = f :: rest →
        extractTracking { order with fulfillments := f :: rest' } =
          extractTracking order)
    ∧ (∀ f rest, order.fulfillments = f :: rest →
        ((∀ x xs, f.tracking_numbers = x :: xs → x ≠ "" →
            extractTracking order = some x)
        ∧ (f.tracking_numbers = [] → optTruthy f.tracking_number = true →
            extractTracking order = f.tracking_number)
        ∧ (f.tracking_numbers = [] → optTruthy f.tracking_number = false →
            optTruthy f.trackingNumber = true →
            extractTracking order = f.trackingNumber)
        ∧ (optTruthy (preSelect f) = false →
            ∀ l₁ item l₂, f.line_items = l₁ ++ item :: l₂ →
              optTruthy item.tracking_number = true →
              (∀ j ∈ l₁, optTruthy j.tracking_number = false) →
              extractTracking order = item.tracking_number)
        ∧ (optTruthy (preSelect f) = false →
            (∀ j ∈ f.line_items, optTruthy j.tracking_number = false) →
            extractTracking order = preSelect f))) := by
  refine ⟨fun h => by simp [extractTracking, h], fun f rest rest' h => ?_, ?_⟩
  · simp [extractTracking, h]
  · intro f rest h
    refine ⟨fun x xs hx hne => ?_, fun hnil ht => ?_, fun hnil ht hc => ?_,
      fun hsel l₁ item l₂ hli hit hprev => ?_, fun hsel hnone => ?_⟩
    · have hp : preSelect f = some x := by simp [preSelect, hx]
      simp [extractTracking, h, hp, optTruthy, strTruthy, hne]
    · have hp : preSelect f = f.tracking_number := by simp [preSelect, hnil, ht]
      simp [extractTracking, h, hp, ht]
    · have hp : preSelect f = f.trackingNumber := by simp [preSelect, hnil, ht, hc]
      simp [extractTracking, h, hp, hc]
    · have hf : f.line_items.find? (fun item => optTruthy item.tracking_number) =
          some item := by
        rw [hli]
        exact find?_first _ l₁ l₂ item (fun j hj => hprev j hj) hit
      simp [extractTracking, h, hsel, hf]
    · have hf : f.line_items.find? (fun item => optTruthy item.tracking_number) =
          none := List.find?_eq_none.mpr (by simpa using hnone)
      simp [extractTracking, h, hsel, hf]

/-- A fulfillment populated simultaneously with a non-empty tracking
list, singular fields and a line-item tracking number. -/
def c5all : Order :=
  ⟨"#1004", none, 0, none, [⟨["T1", "T1b"], some "T2", some "T3", [⟨some "T4"⟩]⟩]⟩

/-- Witness for the amended C5: on the simultaneously populated
fulfillment the tracking-list value wins. -/
theorem extractTracking_fallback_spec_witness :
    extractTracking c5all = some "T1" :=
  ((extractTracking_fallback_spec c5all).2.2 ⟨["T1", "T1b"], some "T2", some "T3",
      [⟨some "T4"⟩]⟩ [] rfl).1 "T1" ["T1b"] rfl (by decide)

/-! ## C2: throttle admission -/

/-- A limiter state recording a single request at `t = 0` for client
`"c"`. -/
def c2state : RateLimiterState := ⟨fun ip => if ip = "c" then [0] else []⟩

/-- C2 counterexample: calling at `now = 1000` with `windowMs = 1000`,
the recorded timestamp `0` is not older than `now - windowMs = 0`, yet
the call drops it: the stored sequence afterwards is `[1000]` rather
than the `[0, 1000]` the claimed strict-pruning rule produces (the code
keeps only timestamps strictly newer than the cutoff). -/
theorem isAllowed_boundary_counterexample :
    ¬ ((0 : Int) < 1000 - 1000) ∧
    (isAllowed c2state "c" 1000 100 1000).1 = true ∧
    (isAllowed c2state "c" 1000 100 1000).2.requests "c" = [1000] ∧
    (isAllowed c2state "c" 1000 100 1000).2.requests "c" ≠ [0, 1000] := by
  refine ⟨by decide, by decide, by decide, by decide⟩

/-- C2 (amended): each `isAllowed` call keeps, of the client's recorded
timestamps, exactly those strictly newer than `now - windowMs` (so a
timestamp exactly at the cutoff is also dropped); it rejects without
recording when the kept count is at least `maxRequests`, otherwise
appends `now` and admits; and with `maxRequests = 2`,
`windowMs = 1000`, calls for one client at `t = 0, 100, 200` return
`true, true, false`, and a subsequent call at `t = 1100` returns
`true`. -/
theorem isAllowed_spec (st : RateLimiterState) (ip : String) (now : Int)
    (maxRequests : Nat) (windowMs : Int) (hw : 0 < windowMs) :
    (∀ t ∈ st.requests ip,
        (t ∈ (isAllowed st ip now maxRequests windowMs).2.requests ip ↔
          now - windowMs < t))
    ∧ (maxRequests ≤
          ((st.requests ip).filter (fun t => now - windowMs < t)).length →
        (isAllowed st ip now maxRequests windowMs).1 = false ∧
        (isAllowed st ip now maxRequests windowMs).2.requests ip =
          (st.requests ip).filter (fun t => now - windowMs < t))
    ∧ (((st.requests ip).filter (fun t => now - windowMs < t)).length <
          maxRequests →
        (isAllowed st ip now maxRequests windowMs).1 = true ∧
        (isAllowed st ip now maxRequests windowMs).2.requests ip =
          (st.requests ip).filter (fun t => now - windowMs < t) ++ [now])
    ∧ ((isAllowed RateLimiterState.init "client" 0 2 1000).1 = true
        ∧ (isAllowed (isAllowed RateLimiterState.init "client" 0 2 1000).2
            "client" 100 2 1000).1 = true
        ∧ (isAllowed (isAllowed (isAllowed RateLimiterState.init "client" 0 2
            1000).2 "client" 100 2 1000).2 "client" 200 2 1000).1 = false
        ∧ (isAllowed (isAllowed (isAllowed (isAllowed RateLimiterState.init
            "client" 0 2 1000).2 "client" 100 2 1000).2 "client" 200 2
            1000).2 "client" 1100 2 1000).1 = true) := by
  by_cases hc : maxRequests ≤
      ((st.requests ip).filter (fun t => now - windowMs < t)).length
  · refine ⟨fun t ht => ?_, fun _ => ?_, fun hlt => absurd hc (by omega), by decide⟩
    · simp [isAllowed, hc, List.mem_filter, ht]
    · constructor <;> simp [isAllowed, hc]
  · refine ⟨fun t ht => ?_, fun hle => absurd hle hc, fun _ => ?_, by decide⟩
    · have hreq : (isAllowed st ip now maxRequests windowMs).2.requests ip =
          (st.requests ip).filter (fun t => now - windowMs < t) ++ [now] := by
        simp [isAllowed, hc]
      rw [hreq]
      simp only [List.mem_append, List.mem_filter, List.mem_singleton,
        decide_eq_true_eq]
      constructor
      · rintro (⟨-, h⟩ | rfl)
        · exact h
        · omega
      · exact fun h => Or.inl ⟨ht, h⟩
    · constructor <;> simp [isAllowed, hc]

/-- Witness for the amended C2 at a concrete call: pruning keeps the
in-window timestamp `100` and drops nothing else for state
`c2state` advanced to `now = 600`. -/
theorem isAllowed_spec_witness :
    (0 : Int) < 1000 ∧
    (∀ t ∈ c2state.requests "c",
      (t ∈ (isAllowed c2state "c" 600 100 1000).2.requests "c" ↔
        600 - 1000 < t)) :=
  ⟨by decide, (isAllowed_spec c2state "c" 600 100 1000 (by decide)).1⟩

/-! ## C3: both-criteria selection -/

/-- The claim-side matching predicate: the candidate has an email that
equals the supplied email case-insensitively. -/
def emailMatchesSpec (em : String) (o : Order) : Prop :=
  ∃ e, o.email = some e ∧ jsToLower e = jsToLower em

/-- For a non-empty supplied email, the boolean filter of `getOrder`
agrees with the claim-side matching predicate (the code's extra
truthiness guard on the candidate email is redundant then). -/
theorem emailMatchesJs_iff (em : String) (hem : em ≠ "") (o : Order) :
    emailMatchesJs em o = true ↔ emailMatchesSpec em o := by
  unfold emailMatchesJs emailMatchesSpec
  cases he : o.email with
  | none => simp
  | some e =>
    simp only [Bool.and_eq_true, beq_iff_eq, strTruthy, decide_eq_true_eq,
      Option.some.injEq]
    constructor
    · rintro ⟨-, h⟩
      exact ⟨e, rfl, h⟩
    · rintro ⟨e', he', hl⟩
      subst he'
      refine ⟨fun h0 => ?_, hl⟩
      subst h0
      have hdata : em.data.map Char.toLower = [] := by
        have := congrArg String.data hl.symm
        simpa [jsToLower] using this
      exact hem (String.ext (by simpa using hdata))

/-- The check `orders.isEmpty` is false for a non-empty result set. -/
theorem orders_isEmpty_false {l : List Order} (h : l ≠ []) :
    l.isEmpty = false := by
  cases l with
  | nil => exact absurd rfl h
  | cons a t => rfl

/-- C3: with both criteria supplied (truthy) and a non-empty 2xx result
set, `getOrder` selects the first candidate whose email matches the
supplied email case-insensitively, and when no candidate matches it
selects `orders[0]` — a located order, never the not-found result. -/
theorem getOrder_both_criteria (onum em : String) (resp : UpstreamResponse)
    (honum : onum ≠ "") (hem : em ≠ "")
    (hok : responseOk resp = true) (hne : resp.orders ≠ []) :
    (∀ l₁ o l₂, resp.orders = l₁ ++ o :: l₂ → emailMatchesSpec em o →
        (∀ o' ∈ l₁, ¬ emailMatchesSpec em o') →
        getOrder (some onum) (some em) resp = (.ok (some o), 1))
    ∧ ((∀ o ∈ resp.orders, ¬ emailMatchesSpec em o) →
        getOrder (some onum) (some em) resp = (.ok resp.orders.head?, 1)
        ∧ ∃ r, resp.orders.head? = some r) := by
  have htru_on : optTruthy (some onum) = true := by
    simp [optTruthy, strTruthy, honum]
  have htru_em : optTruthy (some em) = true := by
    simp [optTruthy, strTruthy, hem]
  have hie := orders_isEmpty_false hne
  constructor
  · intro l₁ o l₂ hdec hmatch hprev
    have hfind : resp.orders.find? (emailMatchesJs em) = some o := by
      rw [hdec]
      exact find?_first _ l₁ l₂ o
        (fun x hx => by
          have := hprev x hx
          rw [← emailMatchesJs_iff em hem x] at this
          exact Bool.not_eq_true _ ▸ (by simpa using this))
        ((emailMatchesJs_iff em hem o).mpr hmatch)
    simp [getOrder, htru_on, htru_em, hok, hie, hfind]
  · intro hnone
    have hfind : resp.orders.find? (emailMatchesJs em) = none :=
      List.find?_eq_none.mpr fun x hx hpx =>
        hnone x hx ((emailMatchesJs_iff em hem x).mp hpx)
    refine ⟨by simp [getOrder, htru_on, htru_em, hok, hie, hfind], ?_⟩
    obtain ⟨a, t, h⟩ := List.exists_cons_of_ne_nil hne
    exact ⟨a, by rw [h]; rfl⟩

/-- A two-candidate response where only the second candidate's email
matches, used to instantiate the C3 theorem. -/
def c3resp : UpstreamResponse :=
  ⟨200, [⟨"#2001", some "other@example.com", 50, none, []⟩,
         ⟨"#2002", some "Jane@Example.com", 10, none, []⟩]⟩

/-- Witness for C3: the case-insensitive match on the second candidate
is selected ahead of the first (non-matching) one. -/
theorem getOrder_both_criteria_witness :
    getOrder (some "2002") (some "jane@example.com") c3resp =
      (.ok (some ⟨"#2002", some "Jane@Example.com", 10, none, []⟩), 1) :=
  (getOrder_both_criteria "2002" "jane@example.com" c3resp (by decide)
      (by decide) (by decide) (by decide)).1
    [⟨"#2001", some "other@example.com", 50, none, []⟩]
    ⟨"#2002", some "Jane@Example.com", 10, none, []⟩ [] rfl
    ⟨"Jane@Example.com", rfl, by decide⟩
    (by
      rintro o' ho' ⟨e, he, hl⟩
      simp only [List.mem_singleton] at ho'
      subst ho'
      simp only [Option.some.injEq] at he
      subst he
      exact absurd (congrArg String.data hl) (by decide))

/-! ## C4: single-criterion selection -/

/-- The first element of a list attaining the maximal `created_at`. -/
def firstMax : List Order → Option Order
  | [] => none
  | a :: l =>
    match firstMax l with
    | none => some a
    | some m => if a.created_at < m.created_at then some m else some a

/-- The selector `firstMax` is `none` exactly on the empty list. -/
theorem firstMax_eq_none {l : List Order} : firstMax l = none ↔ l = [] := by
  cases l with
  | nil => simp [firstMax]
  | cons a t =>
    cases h : firstMax t <;> simp only [firstMax, h]
    · simp
    · split <;> simp

/-- Transitivity of the descending `created_at` comparator. -/
theorem leDesc_trans : ∀ (a b c : Order),
    (fun a b : Order => decide (b.created_at ≤ a.created_at)) a b →
    (fun a b : Order => decide (b.created_at ≤ a.created_at)) b c →
    (fun a b : Order => decide (b.created_at ≤ a.created_at)) a c := by
  intro a b c hab hbc
  simp only [decide_eq_true_eq] at *
  omega

/-- Totality of the descending `created_at` comparator. -/
theorem leDesc_total : ∀ (a b : Order),
    ((fun a b : Order => decide (b.created_at ≤ a.created_at)) a b ||
      (fun a b : Order => decide (b.created_at ≤ a.created_at)) b a) = true := by
  intro a b
  simp only [Bool.or_eq_true, decide_eq_true_eq]
  omega

/-- The head of the stable descending sort is the first element
attaining the maximal `created_at`. -/
theorem head?_sortByCreatedDesc (l : List Order) :
    (sortByCreatedDesc l).head? = firstMax l := by
  induction l with
  | nil => simp [sortByCreatedDesc, firstMax]
  | cons a l ih =>
    unfold sortByCreatedDesc at ih ⊢
    obtain ⟨l₁, l₂, h₁, h₂, h₃⟩ := List.mergeSort_cons leDesc_trans leDesc_total a l
    rw [h₁]
    cases l₁ with
    | nil =>
      simp only [List.nil_append] at h₁ h₂
      show some a = firstMax (a :: l)
      cases hm : firstMax l with
      | none => simp [firstMax, hm]
      | some m =>
        have hm2 : l₂.head? = some m := by rw [← h₂, ih, hm]
        have hmem : m ∈ l₂ := by
          cases l₂ with
          | nil => exact absurd hm2 (by simp)
          | cons x t =>
            simp only [List.head?_cons, Option.some.injEq] at hm2
            exact hm2 ▸ List.mem_cons_self x t
        have hs := List.sorted_mergeSort leDesc_trans leDesc_total (a :: l)
        rw [h₁] at hs
        have hle : m.created_at ≤ a.created_at := by
          have := (List.pairwise_cons.mp hs).1 m hmem
          simpa using this
        simp only [firstMax, hm]
        rw [if_neg (by omega)]
    | cons b t =>
      have hab : a.created_at < b.created_at := by
        have := h₃ b (List.mem_cons_self b t)
        simp only [Bool.not_eq_true', decide_eq_false_iff_not, Int.not_le] at this
        exact this
      have ihb : firstMax l = some b := by
        rw [← ih, h₂]
        rfl
      show some b = firstMax (a :: l)
      simp only [firstMax, ihb]
      rw [if_pos hab]

/-- Decomposition produced by `firstMax`: the selected element is
maximal and everything before it is strictly smaller. -/
theorem firstMax_spec : ∀ (l : List Order) (r : Order), firstMax l = some r →
    ∃ l₁ l₂, l = l₁ ++ r :: l₂ ∧ (∀ o ∈ l, o.created_at ≤ r.created_at) ∧
      (∀ o ∈ l₁, o.created_at < r.created_at)
  | [], r, h => by simp [firstMax] at h
  | a :: l, r, h => by
    cases hm : firstMax l with
    | none =>
      simp only [firstMax, hm, Option.some.injEq] at h
      have hl : l = [] := firstMax_eq_none.mp hm
      subst hl
      subst h
      exact ⟨[], [], rfl, by simp, by simp⟩
    | some m =>
      simp only [firstMax, hm] at h
      by_cases hcmp : a.created_at < m.created_at
      · rw [if_pos hcmp] at h
        simp only [Option.some.injEq] at h
        subst h
        obtain ⟨l₁, l₂, hdec, hall, hbef⟩ := firstMax_spec l m hm
        refine ⟨a :: l₁, l₂, by rw [hdec]; rfl, ?_, ?_⟩
        · intro o ho
          rcases List.mem_cons.mp ho with rfl | ho
          · omega
          · exact hall o ho
        · intro o ho
          rcases List.mem_cons.mp ho with rfl | ho
          · omega
          · exact hbef o ho
      · rw [if_neg hcmp] at h
        simp only [Option.some.injEq] at h
        subst h
        obtain ⟨l₁, l₂, hdec, hall, _⟩ := firstMax_spec l m hm
        refine ⟨[], l, rfl, ?_, by simp⟩
        intro o ho
        rcases List.mem_cons.mp ho with rfl | ho
        · omega
        · have := hall o ho
          omega

/-- C4: with exactly one criterion supplied and a non-empty 2xx result
set, `getOrder` selects a candidate with the maximal `created_at`, and
among candidates sharing that maximum the one earliest in the original
upstream order (everything before it is strictly older). -/
theorem getOrder_single_criterion (orderNumber email : Option String)
    (resp : UpstreamResponse)
    (hone : ((optTruthy orderNumber).xor (optTruthy email)) = true)
    (hok : responseOk resp = true) (hne : resp.orders ≠ []) :
    ∃ l₁ r l₂, resp.orders = l₁ ++ r :: l₂ ∧
      (∀ o ∈ resp.orders, o.created_at ≤ r.created_at) ∧
      (∀ o ∈ l₁, o.created_at < r.created_at) ∧
      getOrder orderNumber email resp = (.ok (some r), 1) := by
  have hie := orders_isEmpty_false hne
  have hr : ∃ r, firstMax resp.orders = some r := by
    cases h : firstMax resp.orders with
    | none => exact absurd (firstMax_eq_none.mp h) hne
    | some r => exact ⟨r, rfl⟩
  obtain ⟨r, hr⟩ := hr
  obtain ⟨l₁, l₂, hdec, hall, hbef⟩ := firstMax_spec resp.orders r hr
  have hhead : (sortByCreatedDesc resp.orders).head? = some r := by
    rw [head?_sortByCreatedDesc, hr]
  refine ⟨l₁, r, l₂, hdec, hall, hbef, ?_⟩
  cases ha : optTruthy orderNumber <;> cases hb : optTruthy email <;>
    rw [ha, hb] at hone <;> first
      | exact absurd hone (by decide)
      | simp [getOrder, ha, hb, hok, hie, hhead]

/-- A three-candidate response with a duplicated maximal creation time,
used to instantiate the C4 theorem. -/
def c4resp : UpstreamResponse :=
  ⟨200, [⟨"#3001", none, 40, none, []⟩, ⟨"#3002", none, 90, none, []⟩,
         ⟨"#3003", none, 90, none, []⟩]⟩

/-- Witness for C4: on the concrete tied response the theorem produces a
maximal candidate preceded only by strictly older ones, and `getOrder`
selects it. -/
theorem getOrder_single_criterion_witness :
    ∃ l₁ r l₂, c4resp.orders = l₁ ++ r :: l₂ ∧
      (∀ o ∈ c4resp.orders, o.created_at ≤ r.created_at) ∧
      (∀ o ∈ l₁, o.created_at < r.created_at) ∧
      getOrder (some "3002") none c4resp = (.ok (some r), 1) :=
  getOrder_single_criterion (some "3002") none c4resp (by decide) (by decide)
    (by decide)

/-! ## C8: upstream error classification -/

/-- The `catch` handler never produces a success response. -/
theorem handleShopifyError_isFailure (msg : String) :
    ∃ e m c s, handleShopifyError msg = .failure e m c s := by
  unfold handleShopifyError
  split
  · exact ⟨_, _, _, _, rfl⟩
  · split
    · exact ⟨_, _, _, _, rfl⟩
    · split
      · exact ⟨_, _, _, _, rfl⟩
      · exact ⟨_, _, _, _, rfl⟩

set_option maxHeartbeats 2000000 in
/-- Every 5xx upstream status is classified as the service-unavailable
error. -/
theorem handleShopifyError_5xx (s : Nat) (h1 : 500 ≤ s) (h2 : s ≤ 599) :
    handleShopifyError (shopifyErrorMessage s) =
      .failure "Service unavailable" "Shopify API is currently unavailable"
        "SHOPIFY_SERVICE_UNAVAILABLE" 503 := by
  interval_cases s <;> decide

/-- On an admitted, validated request with a non-2xx upstream response,
`handleTrack` returns the classified upstream error after exactly one
upstream call. -/
theorem handleTrack_fetch_error (st : RateLimiterState) (ip : String)
    (orderNumber email : Option String) (resp : UpstreamResponse) (now : Int)
    (hallow : (isAllowed st ip now 100 900000).1 = true)
    (hfields : (optTruthy orderNumber || optTruthy email) = true)
    (hvon : optTruthy orderNumber = true →
      validateOrderNumber (orderNumber.getD "") = true)
    (hvem : optTruthy email = true → validateEmail (email.getD "") = true)
    (hbad : responseOk resp = false) :
    (handleTrack st ip orderNumber email resp now).result =
      handleShopifyError (shopifyErrorMessage resp.status) ∧
    (handleTrack st ip orderNumber email resp now).upstreamCalls = 1 := by
  have g0 : (!optTruthy orderNumber && !optTruthy email) = false := by
    cases ho : optTruthy orderNumber <;> rw [ho] at hfields <;> simp_all
  have g1 : (optTruthy orderNumber &&
      !validateOrderNumber (orderNumber.getD "")) = false := by
    cases ho : optTruthy orderNumber
    · simp
    · simp [hvon ho]
  have g2 : (optTruthy email && !validateEmail (email.getD "")) = false := by
    cases he : optTruthy email
    · simp
    · simp [hvem he]
  have hgo : getOrder orderNumber email resp =
      (.error (shopifyErrorMessage resp.status), 1) := by
    simp [getOrder, g0, hbad]
  constructor <;> simp [handleTrack, hallow, g0, g1, g2, hgo]

/-- C8: for every non-2xx upstream status on an admitted, validated
request, `handleTrack` performs exactly one upstream call, never
returns a success result, and maps 401 to `SHOPIFY_AUTH_ERROR`, 403 to
`SHOPIFY_ACCESS_DENIED`, and every 5xx status to
`SHOPIFY_SERVICE_UNAVAILABLE`. -/
theorem handleTrack_upstream_error (st : RateLimiterState) (ip : String)
    (orderNumber email : Option String) (resp : UpstreamResponse) (now : Int)
    (hallow : (isAllowed st ip now 100 900000).1 = true)
    (hfields : (optTruthy orderNumber || optTruthy email) = true)
    (hvon : optTruthy orderNumber = true →
      validateOrderNumber (orderNumber.getD "") = true)
    (hvem : optTruthy email = true → validateEmail (email.getD "") = true)
    (hbad : responseOk resp = false) :
    (handleTrack st ip orderNumber email resp now).upstreamCalls = 1
    ∧ (∀ d, (handleTrack st ip orderNumber email resp now).result ≠ .success d)
    ∧ (resp.status = 401 →
        (handleTrack st ip orderNumber email resp now).result =
          .failure "Authentication failed" "Shopify API authentication error"
            "SHOPIFY_AUTH_ERROR" 500)
    ∧ (resp.status = 403 →
        (handleTrack st ip orderNumber email resp now).result =
          .failure "Access denied" "Shopify API access denied"
            "SHOPIFY_ACCESS_DENIED" 500)
    ∧ (500 ≤ resp.status → resp.status ≤ 599 →
        (handleTrack st ip orderNumber email resp now).result =
          .failure "Service unavailable" "Shopify API is currently unavailable"
            "SHOPIFY_SERVICE_UNAVAILABLE" 503) := by
  obtain ⟨hres, hcalls⟩ :=
    handleTrack_fetch_error st ip orderNumber email resp now hallow hfields
      hvon hvem hbad
  refine ⟨hcalls, ?_, ?_, ?_, ?_⟩
  · intro d hd
    obtain ⟨e, m, c, s, hf⟩ :=
      handleShopifyError_isFailure (shopifyErrorMessage resp.status)
    rw [hres, hf] at hd
    exact absurd hd (by simp)
  · intro h401
    rw [hres, h401]
    decide
  · intro h403
    rw [hres, h403]
    decide
  · intro h5a h5b
    rw [hres]
    exact handleShopifyError_5xx resp.status h5a h5b

/-- Witness for C8: a 401 upstream response on a fresh limiter and a
valid order number yields the auth error after one upstream call. -/
theorem handleTrack_upstream_error_witness :
    (handleTrack RateLimiterState.init "203.0.113.7" (some "1001") none
      ⟨401, []⟩ 0).result =
      .failure "Authentication failed" "Shopify API authentication error"
        "SHOPIFY_AUTH_ERROR" 500
    ∧ (handleTrack RateLimiterState.init "203.0.113.7" (some "1001") none
        ⟨401, []⟩ 0).upstreamCalls = 1 :=
  ⟨(handleTrack_upstream_error RateLimiterState.init "203.0.113.7"
      (some "1001") none ⟨401, []⟩ 0 (by decide) (by decide) (by decide)
      (by decide) (by decide)).2.2.1 rfl,
   (handleTrack_upstream_error RateLimiterState.init "203.0.113.7"
      (some "1001") none ⟨401, []⟩ 0 (by decide) (by decide) (by decide)
      (by decide) (by decide)).1⟩

/-! ## C9: marker stripping in the success payload -/

/-- The order located by the C9 counterexample request: its display name
carries a `#` in the middle, not as a leading marker. -/
def c9order : Order := ⟨"AB#12", some "a@b.c", 0, none, []⟩

/-- C9 counterexample: the located order's display name `"AB#12"` has no
leading marker, so under the claim the success `orderNumber` would be
the unchanged `"AB#12"`; the code removes the first `#` wherever it
occurs and returns `"AB12"`. -/
theorem handleTrack_orderNumber_counterexample :
    (handleTrack RateLimiterState.init "ip" (some "AB#12") (some "a@b.c")
      ⟨200, [c9order]⟩ 0).result =
      .success ⟨"AB12", "Order Processing", none, 0, 0, none, false, none⟩
    ∧ c9order.name = "AB#12"
    ∧ c9order.name.data.head? ≠ some '#'
    ∧ "AB12" ≠ "AB#12" := by
  refine ⟨rfl, rfl, by decide, by decide⟩

/-- C9 (amended): for every successfully located candidate, the success
payload's `orderNumber` is the candidate's display name with the first
occurrence of `#` — wherever it appears — removed; a name containing no
`#` is returned unchanged, and in particular a leading marker is
stripped. -/
theorem handleTrack_success_orderNumber (st : RateLimiterState) (ip : String)
    (orderNumber email : Option String) (resp : UpstreamResponse) (now : Int)
    (order : Order)
    (hallow : (isAllowed st ip now 100 900000).1 = true)
    (hfields : (optTruthy orderNumber || optTruthy email) = true)
    (hvon : optTruthy orderNumber = true →
      validateOrderNumber (orderNumber.getD "") = true)
    (hvem : optTruthy email = true → validateEmail (email.getD "") = true)
    (hsel : (getOrder orderNumber email resp).1 = .ok (some order)) :
    ∃ d, (handleTrack st ip orderNumber email resp now).result = .success d
      ∧ d.orderNumber = stripHash order.name
      ∧ ('#' ∉ order.name.data → d.orderNumber = order.name)
      ∧ (∀ rest, order.name.data = '#' :: rest → d.orderNumber.data = rest) := by
  have g0 : (!optTruthy orderNumber && !optTruthy email) = false := by
    cases ho : optTruthy orderNumber <;> rw [ho] at hfields <;> simp_all
  have g1 : (optTruthy orderNumber &&
      !validateOrderNumber (orderNumber.getD "")) = false := by
    cases ho : optTruthy orderNumber
    · simp
    · simp [hvon ho]
  have g2 : (optTruthy email && !validateEmail (email.getD "")) = false := by
    cases he : optTruthy email
    · simp
    · simp [hvem he]
  have hres : (handleTrack st ip orderNumber email resp now).result =
      .success
        { orderNumber := stripHash order.name
          status := (determineOrderStatus order now).status
          trackingNumber := (determineOrderStatus order now).trackingNumber
          orderDate := order.created_at
          lastUpdated := now
          deliveredAt := (determineOrderStatus order now).deliveredAt
          buttonsDisabled := (determineOrderStatus order now).buttonsDisabled
          disabledReason := (determineOrderStatus order now).disabledReason } := by
    simp [handleTrack, hallow, g0, g1, g2, hsel]
  refine ⟨_, hres, rfl, fun hn => ?_, fun rest hr => ?_⟩
  · show stripHash order.name = order.name
    unfold stripHash
    rw [replaceFirst_of_not_mem hn]
  · show (stripHash order.name).data = rest
    unfold stripHash
    rw [hr]
    simp [replaceFirst]

/-- The order located by the C9 witness request, with a leading
marker. -/
def c9w : Order := ⟨"#1001", some "a@b.c", 0, none, []⟩

/-- Witness for the amended C9: the leading marker of `"#1001"` is
stripped in the success payload. -/
theorem handleTrack_success_orderNumber_witness :
    ∃ d, (handleTrack RateLimiterState.init "ip" (some "1001")
        (some "a@b.c") ⟨200, [c9w]⟩ 0).result = .success d
      ∧ d.orderNumber = stripHash c9w.name
      ∧ ('#' ∉ c9w.name.data → d.orderNumber = c9w.name)
      ∧ (∀ rest, c9w.name.data = '#' :: rest → d.orderNumber.data = rest) :=
  handleTrack_success_orderNumber RateLimiterState.init "ip" (some "1001")
    (some "a@b.c") ⟨200, [c9w]⟩ 0 c9w (by decide) (by decide) (by decide)
    (by decide) rfl

/-! ## C10: throttle state invariant -/

/-- Run a sequence of `isAllowed` calls (client identifier and call
time) against a starting limiter state. -/
def runCalls (maxRequests : Nat) (windowMs : Int) :
    RateLimiterState → List (String × Int) → RateLimiterState
  | st, [] => st
  | st, c :: rest =>
    runCalls maxRequests windowMs (isAllowed st c.1 c.2 maxRequests windowMs).2 rest

/-- The time of the most recent call in the sequence touching the given
client, when any. -/
def lastTouch (calls : List (String × Int)) (ip : String) : Option Int :=
  ((calls.filter (fun d => d.1 = ip)).getLast?).map Prod.snd

/-- An `isAllowed` call leaves other clients' recorded timestamps
unchanged. -/
theorem isAllowed_requests_other (st : RateLimiterState) (ip : String)
    (now : Int) (maxRequests : Nat) (windowMs : Int) (k : String)
    (h : k ≠ ip) :
    (isAllowed st ip now maxRequests windowMs).2.requests k =
      st.requests k := by
  simp only [isAllowed]
  split <;> simp [h]

/-- An `isAllowed` call preserves the per-client length bound. -/
theorem isAllowed_length_le (st : RateLimiterState) (ip : String) (now : Int)
    (maxRequests : Nat) (windowMs : Int)
    (h : ∀ k, (st.requests k).length ≤ maxRequests) (k : String) :
    ((isAllowed st ip now maxRequests windowMs).2.requests k).length ≤
      maxRequests := by
  by_cases hk : k = ip
  · subst hk
    simp only [isAllowed]
    split
    · next hc =>
      simpa using le_trans (List.length_filter_le _ _) (h k)
    · next hc =>
      simp only [if_true, List.length_append, List.length_cons,
        List.length_nil]
      omega
  · rw [isAllowed_requests_other st ip now maxRequests windowMs k hk]
    exact h k

/-- Running calls preserves the per-client length bound. -/
theorem runCalls_length (maxRequests : Nat) (windowMs : Int) :
    ∀ (calls : List (String × Int)) (st : RateLimiterState),
    (∀ k, (st.requests k).length ≤ maxRequests) →
    ∀ k, ((runCalls maxRequests windowMs st calls).requests k).length ≤
      maxRequests
  | [], _, h, k => h k
  | c :: rest, st, h, k =>
    runCalls_length maxRequests windowMs rest _
      (fun k' => isAllowed_length_le st c.1 c.2 maxRequests windowMs h k') k

/-- A call sequence never touching a client leaves its timestamps
unchanged. -/
theorem runCalls_untouched (maxRequests : Nat) (windowMs : Int) :
    ∀ (calls : List (String × Int)) (st : RateLimiterState) (ip : String),
    (∀ c ∈ calls, c.1 ≠ ip) →
    (runCalls maxRequests windowMs st calls).requests ip = st.requests ip
  | [], _, _, _ => rfl
  | c :: rest, st, ip, h => by
    show (runCalls maxRequests windowMs
      (isAllowed st c.1 c.2 maxRequests windowMs).2 rest).requests ip = _
    rw [runCalls_untouched maxRequests windowMs rest _ ip
      (fun d hd => h d (List.mem_cons_of_mem c hd))]
    exact isAllowed_requests_other st c.1 c.2 maxRequests windowMs ip
      (fun he => h c (List.mem_cons_self c rest) he.symm)

/-- After an `isAllowed` call with a positive window, every timestamp
recorded for the called client lies strictly inside the call's
window. -/
theorem isAllowed_window (st : RateLimiterState) (ip : String) (now : Int)
    (maxRequests : Nat) (windowMs : Int) (hw : 0 < windowMs) (t : Int)
    (ht : t ∈ (isAllowed st ip now maxRequests windowMs).2.requests ip) :
    now - windowMs < t := by
  simp only [isAllowed] at ht
  split at ht
  · simp only [if_true, List.mem_filter, decide_eq_true_eq] at ht
    exact ht.2
  · simp only [if_true, List.mem_append, List.mem_filter,
      List.mem_singleton, decide_eq_true_eq] at ht
    rcases ht with ⟨-, h⟩ | rfl
    · exact h
    · omega

/-- After running a call sequence, every timestamp recorded for a client
lies strictly inside the window of the most recent call touching that
client. -/
theorem runCalls_window (maxRequests : Nat) (windowMs : Int)
    (hw : 0 < windowMs) :
    ∀ (calls : List (String × Int)) (st : RateLimiterState) (ip : String)
      (n : Int), lastTouch calls ip = some n →
    ∀ t ∈ (runCalls maxRequests windowMs st calls).requests ip,
      n - windowMs < t
  | [], _, _, _, h => by simp [lastTouch] at h
  | c :: rest, st, ip, n, h => by
    intro t ht
    show n - windowMs < t
    by_cases hc : c.1 = ip
    · by_cases hrest : rest.filter (fun d => d.1 = ip) = []
      · have hn : n = c.2 := by
          unfold lastTouch at h
          rw [List.filter_cons, if_pos (by simpa using hc), hrest] at h
          simpa using h.symm
        have huntouched :
            (runCalls maxRequests windowMs
              (isAllowed st c.1 c.2 maxRequests windowMs).2 rest).requests ip =
            (isAllowed st c.1 c.2 maxRequests windowMs).2.requests ip :=
          runCalls_untouched maxRequests windowMs rest _ ip
            (fun d hd => by
              intro he
              exact absurd hd (by
                intro hmem
                have := List.filter_eq_nil_iff.mp hrest d hmem
                simp [he] at this))
        have ht' : t ∈ (isAllowed st c.1 c.2 maxRequests windowMs).2.requests ip := by
          rw [← huntouched]
          exact ht
        rw [hn]
        rw [hc] at ht'
        exact isAllowed_window st ip c.2 maxRequests windowMs hw t ht'
      · have h' : lastTouch rest ip = some n := by
          unfold lastTouch at h ⊢
          rw [List.filter_cons, if_pos (by simpa using hc)] at h
          obtain ⟨d, ds, hds⟩ := List.exists_cons_of_ne_nil hrest
          rw [hds] at h
          rw [List.getLast?_cons_cons] at h
          rw [hds]
          exact h
        exact runCalls_window maxRequests windowMs hw rest _ ip n h' t ht
    · have h' : lastTouch rest ip = some n := by
        unfold lastTouch at h ⊢
        rw [List.filter_cons, if_neg (by simpa using hc)] at h
        exact h
      exact runCalls_window maxRequests windowMs hw rest _ ip n h' t ht

/-- C10: along any call sequence with non-decreasing times and a
positive window, after every call the stored timestamp list of every
client has length at most `maxRequests`, and each of its entries is
strictly newer than `n - windowMs` where `n` is the time of the most
recent call that touched that client. -/
theorem rateLimiter_invariant (maxRequests : Nat) (windowMs : Int)
    (hw : 0 < windowMs) (calls : List (String × Int))
    (_hmono : calls.Chain' (fun a b => a.2 ≤ b.2)) (k : Nat) (ip : String) :
    ((runCalls maxRequests windowMs RateLimiterState.init
        (calls.take k)).requests ip).length ≤ maxRequests
    ∧ (∀ n, lastTouch (calls.take k) ip = some n →
        ∀ t ∈ (runCalls maxRequests windowMs RateLimiterState.init
            (calls.take k)).requests ip, n - windowMs < t) :=
  ⟨runCalls_length maxRequests windowMs (calls.take k) RateLimiterState.init
      (fun _ => by simp [RateLimiterState.init]) ip,
   fun n hn t ht =>
    runCalls_window maxRequests windowMs hw (calls.take k)
      RateLimiterState.init ip n hn t ht⟩

/-- Witness for C10 on a concrete monotone three-call sequence. -/
theorem rateLimiter_invariant_witness :
    (0 : Int) < 1000 ∧
    List.Chain' (fun a b : String × Int => a.2 ≤ b.2)
      [("a", 0), ("a", 100), ("b", 200)] ∧
    (((runCalls 2 1000 RateLimiterState.init
        ([("a", 0), ("a", 100), ("b", 200)].take 3)).requests "a").length ≤ 2
    ∧ (∀ n, lastTouch ([("a", 0), ("a", 100), ("b", 200)].take 3) "a" =
          some n →
        ∀ t ∈ (runCalls 2 1000 RateLimiterState.init
            ([("a", 0), ("a", 100), ("b", 200)].take 3)).requests "a",
          n - 1000 < t)) := by
  have hch : List.Chain' (fun a b : String × Int => a.2 ≤ b.2)
      [("a", 0), ("a", 100), ("b", 200)] := by
    refine List.chain'_cons.mpr ⟨by decide, ?_⟩
    refine List.chain'_cons.mpr ⟨by decide, ?_⟩
    simp
  exact ⟨by decide, hch,
    rateLimiter_invariant 2 1000 (by decide)
      [("a", 0), ("a", 100), ("b", 200)] hch 3 "a"⟩

end ShopifyTracking
